import Mathlib

/-!
Shallow embedding of the resource/session lifecycle manager of the go-tpm2
library: the resource context store (`resources.go`), the post-Clear
mass-invalidation sweep and the self-referential auth-rotation handling of
the hierarchy commands (`cmds_hierarchy.go`), and the error classification
of `WrapHandle`.

Machine integers are modelled as `Nat` (handles are 32-bit values; the only
arithmetic performed on them is extraction of the top byte and big-endian
byte encoding, both written with explicit `/`, `%`).  Go interface values
that may be `nil` are modelled as `Option`.  Go `panic` is modelled as an
explicit outcome constructor.  Go maps keyed by handle are modelled as
association lists with `Nodup` keys.
-/

namespace Tpm2

/-- Modelled from the spec (and the TPM 2.0 handle constants, whose defining
file is not part of the sources given): the handle type is the most
significant byte of the 32-bit handle. -/
def handleType (h : Nat) : Nat := h / 2 ^ 24 % 256

/-- Modelled from the spec: TPM_HT_PCR. -/
def handleTypePCR : Nat := 0x00

/-- Modelled from the spec: TPM_HT_NV_INDEX. -/
def handleTypeNVIndex : Nat := 0x01

/-- Modelled from the spec: TPM_HT_HMAC_SESSION. -/
def handleTypeHMACSession : Nat := 0x02

/-- Modelled from the spec: TPM_HT_LOADED_SESSION, an alias of
TPM_HT_HMAC_SESSION (the test file converts a policy-session handle to this
base before querying the loaded-session capability range). -/
def handleTypeLoadedSession : Nat := 0x02

/-- Modelled from the spec: TPM_HT_POLICY_SESSION. -/
def handleTypePolicySession : Nat := 0x03

/-- Modelled from the spec: TPM_HT_PERMANENT. -/
def handleTypePermanent : Nat := 0x40

/-- Modelled from the spec: TPM_HT_TRANSIENT. -/
def handleTypeTransient : Nat := 0x80

/-- Modelled from the spec: TPM_HT_PERSISTENT. -/
def handleTypePersistent : Nat := 0x81

/-- Modelled from the spec: TPM_RH_NULL, the null-handle sentinel. -/
def HandleNull : Nat := 0x40000007

/-- Modelled from the spec: TPMA_NV_PLATFORMCREATE (bit 30 of the NV
attributes). -/
def attrNVPlatformCreate : Nat := 0x40000000

/-- Modelled from the spec: the warning code TPM_RC_REFERENCE_H0 checked by
`WrapHandle`. -/
def warningReferenceH0 : Nat := 0x10

/-- Modelled from the spec: the handle error code TPM_RC_HANDLE checked by
`WrapHandle`. -/
def errorHandle : Nat := 0x0b

/-- Big-endian 4-byte encoding of a 32-bit value, as produced by
`binary.BigEndian.PutUint32` into a fresh 4-byte buffer. -/
def be32 (v : Nat) : List Nat :=
  [v / 2 ^ 24 % 256, v / 2 ^ 16 % 256, v / 2 ^ 8 % 256, v % 256]

/-- `binary.BigEndian.PutUint32(dst, v)` writes the 4-byte big-endian
encoding of `v` over the first four bytes of `dst`, keeping the remainder
of the slice.  (Go panics when `dst` is shorter than four bytes; the names
this is applied to are produced by the TPM and are at least four bytes,
which the well-formedness predicate below records.) -/
def putUint32BE (dst : List Nat) (v : Nat) : List Nat :=
  be32 v ++ dst.drop 4

/-- The distinct error message strings produced by the embedded code,
as an enumeration. -/
inductive ErrMsg where
  | cannotWrapPCR
  | cannotWrapSession
  | nilValue
  | resourceClosed
  | foreignContext
  | wrongHandleType
  | inconsistentName
  | validationFailed
  deriving DecidableEq, Repr

/-- The distinct panic messages of the embedded code, as an enumeration. -/
inductive PanicMsg where
  | evictPermanent
  | evictInvalid
  | addClosed
  | addExists
  | nilDereference
  deriving DecidableEq, Repr

/-- Go error values crossing the embedded functions: TPM warnings, TPM
handle errors (with their numeric codes), the dedicated
`ResourceUnavailableError`, `InvalidResponseError`, transport failures
and plain `errors.New` errors. -/
inductive GoErr where
  | tpmWarning (code : Nat)
  | tpmHandleError (code : Nat) (index : Nat)
  | resourceUnavailable (handle : Nat)
  | invalidResponse (command : Nat) (msg : ErrMsg)
  | transportFailed (code : Nat)
  | goError (msg : ErrMsg)
  deriving DecidableEq, Repr

/-- Outcome of a Go function that may return normally, return an error, or
panic. -/
inductive Res (α : Type) where
  | ok (a : α)
  | err (e : GoErr)
  | panicked (m : PanicMsg)
  deriving DecidableEq, Repr

/-- The public area snapshot stored in an `objectContext`.  Only the fields
relevant to the embedded operations are carried; `Public{}` (the Go zero
value) is the default instance. -/
structure Public where
  nameAlg : Nat := 0
  attrs : Nat := 0
  deriving DecidableEq, Repr

/-- The NV public area snapshot stored in an `nvIndexContext`; `Attrs` is
the NV attributes bitmask consulted by the post-Clear sweep. -/
structure NVPublic where
  index : Nat := 0
  nameAlg : Nat := 0
  attrs : Nat := 0
  size : Nat := 0
  deriving DecidableEq, Repr

/-- The fields of `sessionContext` (resources.go). -/
structure SessionData where
  handle : Nat
  hashAlg : Nat := 0
  sessionType : Nat := 0
  policyHMACType : Nat := 0
  isBound : Bool := false
  boundEntity : List Nat := []
  sessionKey : List Nat := []
  nonceCaller : List Nat := []
  nonceTPM : List Nat := []
  deriving DecidableEq, Repr

/-- A heap-allocated resource context: `*objectContext`, `*nvIndexContext`
or `*sessionContext`.  These are shared mutable objects in Go; the heap
below gives them identity. -/
inductive HeapObj where
  | object (handle : Nat) (pub : Public) (name : List Nat)
  | nvIndex (handle : Nat) (pub : NVPublic) (name : List Nat)
  | session (s : SessionData)
  deriving DecidableEq, Repr

/-- `Handle()` of a heap resource context. -/
def HeapObj.handleOf : HeapObj → Nat
  | .object h _ _ => h
  | .nvIndex h _ _ => h
  | .session s => s.handle

/-- `Name()` of a heap resource context: objects and NV indices return the
stored name, sessions return a fresh big-endian encoding of the handle. -/
def HeapObj.nameOf : HeapObj → List Nat
  | .object _ _ n => n
  | .nvIndex _ _ n => n
  | .session s => be32 s.handle

/-- The private `invalidate()` methods: reset the handle to `HandleNull`,
clear the public snapshot, and overwrite the first four name bytes with the
encoding of the (now null) handle; sessions only reset the handle. -/
def HeapObj.invalidate : HeapObj → HeapObj
  | .object _ _ name => .object HandleNull {} (putUint32BE name HandleNull)
  | .nvIndex _ _ name => .nvIndex HandleNull {} (putUint32BE name HandleNull)
  | .session s => .session { s with handle := HandleNull }

/-- A `ResourceContext` interface value: `permanentContext` is a value type
(just the handle); the other variants are pointers into the heap. -/
inductive RC where
  | permanent (h : Nat)
  | ptr (p : Nat)
  deriving DecidableEq, Repr

/-- The view of how a pointer-valued `RC` is extracted, for stating
injectivity facts. -/
def RC.ptrOf : RC → Option Nat
  | .ptr p => some p
  | .permanent _ => none

/-- The state owned by a `TPMContext`: the arena of heap-allocated resource
contexts (index = pointer; the heap only grows, matching Go references
staying alive) and the `resources` map keyed by handle. -/
structure TpmState where
  heap : List HeapObj
  resources : List (Nat × RC)
  deriving DecidableEq, Repr

/-- Go map lookup `t.resources[handle]`. -/
def lookupResource (st : TpmState) (h : Nat) : Option RC :=
  (st.resources.find? (fun e => e.1 == h)).map (·.2)

/-- `Handle()` on an interface value: permanent contexts return their own
handle; pointers read the heap. -/
def rcHandle (st : TpmState) : RC → Option Nat
  | .permanent h => some h
  | .ptr p => (st.heap[p]?).map HeapObj.handleOf

/-- `Name()` on an interface value: permanent contexts return the
big-endian encoding of the handle; pointers read the heap object. -/
def rcName (st : TpmState) : RC → Option (List Nat)
  | .permanent h => some (be32 h)
  | .ptr p => (st.heap[p]?).map HeapObj.nameOf

/-- `checkResourceContextParam` (resources.go): reject a nil interface
value, accept permanent contexts, reject invalidated contexts (null
handle), and reject contexts not tracked under their handle by this
context. -/
def checkResourceContextParam (st : TpmState) (rc : Option RC) : Option GoErr :=
  match rc with
  | none => some (.goError .nilValue)
  | some (.permanent _) => none
  | some r =>
    match rcHandle st r with
    | none => some (.goError .nilValue)
    | some h =>
      if h = HandleNull then some (.goError .resourceClosed)
      else
        match lookupResource st h with
        | some erc => if erc = r then none else some (.goError .foreignContext)
        | none => some (.goError .foreignContext)

/-- `addResourceContext` (resources.go): permanent contexts are silently
skipped; a nil interface value panics at the `rc.Handle()` call; a closed
context or an already-registered handle is a panic; otherwise the context
is registered under its handle. -/
def addResourceContext (st : TpmState) (rc : Option RC) : Res TpmState :=
  match rc with
  | some (.permanent _) => .ok st
  | none => .panicked .nilDereference
  | some r =>
    match rcHandle st r with
    | none => .panicked .nilDereference
    | some h =>
      if h = HandleNull then .panicked .addClosed
      else
        match lookupResource st h with
        | some _ => .panicked .addExists
        | none => .ok { st with resources := st.resources ++ [(h, r)] }

/-- `evictResourceContext` (resources.go): evicting a permanent context or
an invalid context panics; otherwise the entry is deleted from the map and
the shared heap object is invalidated in place. -/
def evictResourceContext (st : TpmState) (rc : RC) : Res TpmState :=
  match rc with
  | .permanent _ => .panicked .evictPermanent
  | .ptr p =>
    if (checkResourceContextParam st (some rc)).isSome then .panicked .evictInvalid
    else
      match st.heap[p]? with
      | none => .panicked .evictInvalid
      | some obj =>
        .ok { heap := st.heap.set p obj.invalidate,
              resources := st.resources.filter (fun e => !(e.1 == obj.handleOf)) }

/-- The outcomes of the TPM queries `WrapHandle` may perform for the given
handle: `t.nvReadPublic(handle)` and `t.readPublic(handle)` (their
implementations live outside the given sources; each either fails or
returns the public snapshot and name reported by the TPM). -/
structure WrapEnv where
  nvReadPublicResult : Except GoErr (NVPublic × List Nat)
  readPublicResult : Except GoErr (Public × List Nat)

/-- `makeNVIndexContext` (resources.go): on a successful `nvReadPublic`,
allocate a fresh `nvIndexContext`; on failure return the error with no
allocation. -/
def makeNVIndexContext (st : TpmState) (env : WrapEnv) (h : Nat) :
    TpmState × Except GoErr RC :=
  match env.nvReadPublicResult with
  | .error e => (st, .error e)
  | .ok (pub, name) =>
    ({ st with heap := st.heap ++ [.nvIndex h pub name] }, .ok (.ptr st.heap.length))

/-- `makeObjectContext` (resources.go): on a successful `readPublic`,
allocate a fresh `objectContext`; on failure return the error with no
allocation. -/
def makeObjectContext (st : TpmState) (env : WrapEnv) (h : Nat) :
    TpmState × Except GoErr RC :=
  match env.readPublicResult with
  | .error e => (st, .error e)
  | .ok (pub, name) =>
    ({ st with heap := st.heap ++ [.object h pub name] }, .ok (.ptr st.heap.length))

/-- The error rewriting at the end of `WrapHandle`: a TPM warning with code
`WarningReferenceH0`, or a TPM handle error with code `ErrorHandle`,
becomes `ResourceUnavailableError{handle}`; every other error is returned
unchanged. -/
def classifyWrapErr (h : Nat) (e : GoErr) : GoErr :=
  match e with
  | .tpmWarning code => if code = warningReferenceH0 then .resourceUnavailable h else e
  | .tpmHandleError code _ => if code = errorHandle then .resourceUnavailable h else e
  | _ => e

/-- `WrapHandle` (resources.go): return the tracked context when one
exists; otherwise classify the handle by its type byte, building a context
or an error; rewrite resource-unavailable errors; finally register the new
context (the `switch` has no default, so an unhandled type byte reaches
`addResourceContext` with a nil interface value).  The returned context is
the possibly-nil Go interface value. -/
def WrapHandle (st : TpmState) (env : WrapEnv) (h : Nat) :
    TpmState × Res (Option RC) :=
  match lookupResource st h with
  | some rc => (st, .ok (some rc))
  | none =>
    let branch : TpmState × Option RC × Option GoErr :=
      if handleType h = handleTypePCR then
        (st, none, some (.goError .cannotWrapPCR))
      else if handleType h = handleTypeNVIndex then
        match makeNVIndexContext st env h with
        | (st1, .ok rc) => (st1, some rc, none)
        | (st1, .error e) => (st1, none, some e)
      else if handleType h = handleTypeHMACSession ∨ handleType h = handleTypePolicySession then
        (st, none, some (.goError .cannotWrapSession))
      else if handleType h = handleTypePermanent then
        (st, some (.permanent h), none)
      else if handleType h = handleTypeTransient ∨ handleType h = handleTypePersistent then
        match makeObjectContext st env h with
        | (st1, .ok rc) => (st1, some rc, none)
        | (st1, .error e) => (st1, none, some e)
      else
        (st, none, none)
    match branch with
    | (st1, _, some e) => (st1, .err (classifyWrapErr h e))
    | (st1, rcOpt, none) =>
      match addResourceContext st1 rcOpt with
      | .ok st2 => (st2, .ok rcOpt)
      | .err e => (st1, .err e)
      | .panicked m => (st1, .panicked m)

/-- The keep-decision of the post-Clear sweep (`Clear`, cmds_hierarchy.go):
object contexts survive when their handle is in the enumerated surviving
set, NV index contexts survive when flagged platform-created, session
contexts always survive; anything else falls through to
`evictResourceContext`. -/
def sweepKeep (heap : List HeapObj) (surviving : List Nat) (rc : RC) : Bool :=
  match rc with
  | .ptr p =>
    match heap[p]? with
    | some (.object h _ _) => surviving.contains h
    | some (.nvIndex _ pub _) => decide (pub.attrs &&& attrNVPlatformCreate > 0)
    | some (.session _) => true
    | none => false
  | .permanent _ => false

/-- One iteration of the sweep loop body. -/
def sweepOne (surviving : List Nat) (st : TpmState) (e : Nat × RC) : Res TpmState :=
  if sweepKeep st.heap surviving e.2 then .ok st else evictResourceContext st e.2

/-- The sweep loop `for _, rc := range t.resources` of `Clear`: every entry
of the table (each visited exactly once; each iteration deletes at most its
own key) is either kept or evicted. -/
def sweepList (surviving : List Nat) : List (Nat × RC) → TpmState → Res TpmState
  | [], st => .ok st
  | e :: l, st =>
    match sweepOne surviving st e with
    | .ok st' => sweepList surviving l st'
    | .err e' => .err e'
    | .panicked m => .panicked m

/-- The `getHandles` helper of `Clear`: a failed capability enumeration is
silently ignored, contributing no handles to the surviving set. -/
def capHandles : Except GoErr (List Nat) → List Nat
  | .error _ => []
  | .ok l => l

/-- Modelled from the spec: the per-command authorization session parameter
(the `Session` struct and its private `includeAuthValue` flag live outside
the given sources).  The per-use HMAC key is `sessionKey || authValue`,
the auth value being appended exactly when `includeAuthValue` holds. -/
structure AuthSession where
  sessionKey : List Nat
  authValue : List Nat
  includeAuthValue : Bool
  deriving DecidableEq, Repr

/-- Modelled from the spec: the HMAC key derived for one use of a session
(`sessionKey || authValue`, the auth value included conditionally). -/
def hmacKey (s : AuthSession) : List Nat :=
  s.sessionKey ++ (if s.includeAuthValue then s.authValue else [])

/-- Modelled from the spec: `Session.copyWithNewAuthIfRequired`, used by
`Clear` and `HierarchyChangeAuth` — when the session's HMAC key includes
the auth value, return a copy carrying the new auth value; otherwise the
session is returned unchanged. -/
def copyWithNewAuthIfRequired (s : AuthSession) (newAuth : List Nat) : AuthSession :=
  if s.includeAuthValue then { s with authValue := newAuth } else s

/-- The session substitution performed by `Clear` (cmds_hierarchy.go,
response processing): the TPM responds with an HMAC keyed on an empty auth
value, so the session parameter is replaced by a copy carrying the empty
auth value before `processResponse` verifies the response. -/
def clearResponseSession (authSession : Option AuthSession) : Option AuthSession :=
  authSession.map (fun s => copyWithNewAuthIfRequired s [])

/-- The session substitution performed by `HierarchyChangeAuth`
(cmds_hierarchy.go): the TPM responds with an HMAC keyed on `newAuth`, so
the session parameter is replaced by a copy carrying `newAuth` before
`processResponse` verifies the response. -/
def hcaResponseSession (authSession : Option AuthSession) (newAuth : List Nat) :
    Option AuthSession :=
  authSession.map (fun s => copyWithNewAuthIfRequired s newAuth)

/-- The collaborator outcomes consumed by one `Clear` call: the session
validation outcome, the outcome of `runCommandWithoutProcessingResponse`
(`none` = the round trip reached response parsing without error), the two
capability enumerations, the authorization session parameter, and the
response-processing verdict as a function of the (possibly substituted)
session parameter. -/
structure ClearEnv where
  valErr : Option GoErr
  cmdErr : Option GoErr
  capTransient : Except GoErr (List Nat)
  capPersistent : Except GoErr (List Nat)
  authSession : Option AuthSession
  processResponse : Option AuthSession → Option GoErr

/-- `Clear` (cmds_hierarchy.go): validate sessions; run the command without
processing the response; enumerate surviving transient and persistent
handles (enumeration failures silently ignored); sweep the whole resource
table — unconditionally, before the command error is even examined; then
return the command error, or process the response with the
empty-auth-substituted session. -/
def ClearModel (st : TpmState) (env : ClearEnv) : Res (TpmState × Option GoErr) :=
  match env.valErr with
  | some e => .ok (st, some e)
  | none =>
    let surviving := capHandles env.capTransient ++ capHandles env.capPersistent
    match sweepList surviving st.resources st with
    | .panicked m => .panicked m
    | .err e => .err e
    | .ok st' =>
      match env.cmdErr with
      | some e => .ok (st', some e)
      | none => .ok (st', env.processResponse (clearResponseSession env.authSession))

/-- The collaborator outcomes consumed by one `HierarchyChangeAuth` call. -/
structure HCAEnv where
  valErr : Option GoErr
  cmdErr : Option GoErr
  authSession : Option AuthSession
  processResponse : Option AuthSession → Option GoErr

/-- `HierarchyChangeAuth` (cmds_hierarchy.go): validate sessions; run the
command without processing the response (returning early on error, with no
state touched); then process the response with the session parameter
substituted to carry `newAuth`. -/
def HierarchyChangeAuthModel (env : HCAEnv) (newAuth : List Nat) : Option GoErr :=
  match env.valErr with
  | some e => some e
  | none =>
    match env.cmdErr with
    | some e => some e
    | none => env.processResponse (hcaResponseSession env.authSession newAuth)

/-- The response data consumed by one `CreatePrimary` call:
`RunCommand`'s outcome carrying the decoded response values, and the
black-boxed name consistency check `outPublic.Ptr.compareName(name)`
(a digest computation outside the given sources). -/
structure CreatePrimaryEnv where
  runCmdResult : Except GoErr (Nat × Option Public × List Nat)
  compareName : Public → List Nat → Bool

/-- `CreatePrimary` (cmds_hierarchy.go), the resource-tracking tail: on a
`RunCommand` error return it with no state touched; reject a non-transient
returned handle and an inconsistent or missing public area as
`InvalidResponseError`; otherwise allocate an `objectContext` and register
it. -/
def CreatePrimaryModel (st : TpmState) (env : CreatePrimaryEnv)
    (commandCreatePrimary : Nat) : TpmState × Res (Option RC) :=
  match env.runCmdResult with
  | .error e => (st, .err e)
  | .ok (objectHandle, outPublic, name) =>
    if handleType objectHandle ≠ handleTypeTransient then
      (st, .err (.invalidResponse commandCreatePrimary .wrongHandleType))
    else
      match outPublic with
      | none => (st, .err (.invalidResponse commandCreatePrimary .inconsistentName))
      | some pub =>
        if ¬env.compareName pub name then
          (st, .err (.invalidResponse commandCreatePrimary .inconsistentName))
        else
          let st1 : TpmState := { st with heap := st.heap ++ [.object objectHandle pub name] }
          let rc : RC := .ptr st.heap.length
          match addResourceContext st1 (some rc) with
          | .ok st2 => (st2, .ok (some rc))
          | .err e => (st1, .err e)
          | .panicked m => (st1, .panicked m)

/-- Well-formedness of one table entry against a heap: the entry is a valid
pointer (never a permanent context — `addResourceContext` skips those), the
heap object's handle equals the key, the key is not the null sentinel, and
the stored name is at least four bytes (as every TPM-produced name is, and
as `PutUint32` requires). -/
def entryOkHeap (heap : List HeapObj) (e : Nat × RC) : Bool :=
  match e.2 with
  | .permanent _ => false
  | .ptr p =>
    match heap[p]? with
    | some obj => obj.handleOf == e.1 && !(e.1 == HandleNull) && 4 ≤ obj.nameOf.length
    | none => false

/-- Well-formedness of a `TPMContext` state: every tracked entry is valid
against the heap and the tracked keys are distinct (it is a map). -/
def stateWF (st : TpmState) : Prop :=
  (∀ e ∈ st.resources, entryOkHeap st.heap e = true) ∧
    (st.resources.map (·.1)).Nodup

instance (st : TpmState) : Decidable (stateWF st) := by
  unfold stateWF; infer_instance

/-- The entries of `l` evicted by a sweep, decided against the heap of
`st`. -/
def evictedEntries (heap : List HeapObj) (surviving : List Nat) (l : List (Nat × RC)) :
    List (Nat × RC) :=
  l.filter (fun e => !sweepKeep heap surviving e.2)

/-- The keys deleted by a sweep of `l`. -/
def evictedKeys (heap : List HeapObj) (surviving : List Nat) (l : List (Nat × RC)) : List Nat :=
  (evictedEntries heap surviving l).map (·.1)

/-- The heap pointers invalidated by a sweep of `l`. -/
def evictedPtrs (heap : List HeapObj) (surviving : List Nat) (l : List (Nat × RC)) : List Nat :=
  (evictedEntries heap surviving l).filterMap (fun e => e.2.ptrOf)

/-- Invalidate the heap object at pointer `p` in place. -/
def invalidatePtr (heap : List HeapObj) (p : Nat) : List HeapObj :=
  match heap[p]? with
  | some o => heap.set p o.invalidate
  | none => heap

/-- Invalidate the heap objects at all the listed pointers. -/
def invalidatePtrs (heap : List HeapObj) : List Nat → List HeapObj
  | [] => heap
  | p :: ps => invalidatePtrs (invalidatePtr heap p) ps

/-- A 34-byte object name of the usual `algorithm || SHA-256 digest`
form. -/
def sampleObjName : List Nat := [0, 11] ++ List.replicate 32 0xAA

/-- A 34-byte NV index name. -/
def sampleNVName : List Nat := [0, 11] ++ List.replicate 32 0xBB

/-- A sample tracked state: one owner-hierarchy transient object, one
platform-created NV index, one loaded session. -/
def sampleState : TpmState :=
  { heap := [.object 0x80000001 {} sampleObjName,
             .nvIndex 0x01800000 { index := 0x01800000, attrs := 0x40000000 } sampleNVName,
             .session { handle := 0x02000000 }],
    resources := [(0x80000001, .ptr 0), (0x01800000, .ptr 1), (0x02000000, .ptr 2)] }

/-- A sample tracked state with a single transient object context. -/
def sampleSmallState : TpmState :=
  { heap := [.object 0x80000001 {} sampleObjName],
    resources := [(0x80000001, .ptr 0)] }

/-- Sample query outcomes for `WrapHandle`. -/
def sampleWrapEnv : WrapEnv :=
  { nvReadPublicResult := .ok ({ index := 0x01800001 }, sampleNVName),
    readPublicResult := .ok ({}, sampleObjName) }

/-- A `Clear` run whose round trip and response processing succeed and
whose enumerations report nothing resident. -/
def sampleClearEnv : ClearEnv :=
  { valErr := none, cmdErr := none,
    capTransient := .ok [], capPersistent := .ok [],
    authSession := none, processResponse := fun _ => none }

/-- A `Clear` run whose round trip fails with a transport error (the
enumerations fail with it too). -/
def sampleClearTransportEnv : ClearEnv :=
  { valErr := none, cmdErr := some (.transportFailed 0),
    capTransient := .error (.transportFailed 0),
    capPersistent := .error (.transportFailed 0),
    authSession := none, processResponse := fun _ => none }

/-- A `Clear` run whose transient-handle enumeration fails while the round
trip itself succeeds. -/
def sampleClearCapFailEnv : ClearEnv :=
  { valErr := none, cmdErr := none,
    capTransient := .error (.tpmWarning 0x23),
    capPersistent := .ok [],
    authSession := none, processResponse := fun _ => none }

/-! Helper lemmas about the resource table and the heap. -/

theorem find?_key_eq_of_mem_nodup {l : List (Nat × RC)} {e : Nat × RC}
    (he : e ∈ l) (hnd : (l.map (·.1)).Nodup) :
    l.find? (fun x => x.1 == e.1) = some e := by
  induction l with
  | nil => cases he
  | cons a l ih =>
    simp only [List.map_cons, List.nodup_cons] at hnd
    rcases List.mem_cons.mp he with rfl | he'
    · exact List.find?_cons_of_pos _ (by simp)
    · have hne : (a.1 == e.1) = false := by
        simp only [beq_eq_false_iff_ne, ne_eq]
        intro hEq
        exact hnd.1 (hEq ▸ List.mem_map.mpr ⟨e, he', rfl⟩)
      rw [List.find?_cons, hne]
      exact ih he' hnd.2

theorem lookupResource_eq_of_mem {st : TpmState} {e : Nat × RC}
    (he : e ∈ st.resources) (hnd : (st.resources.map (·.1)).Nodup) :
    lookupResource st e.1 = some e.2 := by
  unfold lookupResource
  rw [find?_key_eq_of_mem_nodup he hnd]
  rfl

theorem entryOkHeap_ptr {heap : List HeapObj} {e : Nat × RC}
    (h : entryOkHeap heap e = true) :
    ∃ p obj, e.2 = .ptr p ∧ heap[p]? = some obj ∧ obj.handleOf = e.1 ∧
      e.1 ≠ HandleNull ∧ 4 ≤ obj.nameOf.length := by
  rcases e with ⟨k, rc⟩
  cases rc with
  | permanent q => simp [entryOkHeap] at h
  | ptr p =>
    unfold entryOkHeap at h
    simp only at h
    cases hobj : heap[p]? with
    | none => rw [hobj] at h; simp at h
    | some obj =>
      rw [hobj] at h
      simp only [Bool.and_eq_true, beq_iff_eq, Bool.not_eq_true', beq_eq_false_iff_ne,
        decide_eq_true_eq] at h
      exact ⟨p, obj, rfl, hobj, h.1.1, h.1.2, h.2⟩

theorem key_eq_of_ptr_eq {heap : List HeapObj} {e e' : Nat × RC} {p : Nat}
    (h : entryOkHeap heap e = true) (h' : entryOkHeap heap e' = true)
    (hp : e.2 = .ptr p) (hp' : e'.2 = .ptr p) : e.1 = e'.1 := by
  obtain ⟨q, obj, hq, hobj, hhe, _, _⟩ := entryOkHeap_ptr h
  obtain ⟨q', obj', hq', hobj', hhe', _, _⟩ := entryOkHeap_ptr h'
  rw [hp] at hq
  rw [hp'] at hq'
  cases hq
  cases hq'
  rw [hobj] at hobj'
  cases hobj'
  rw [← hhe, ← hhe']

theorem invalidatePtr_getElem_ne {heap : List HeapObj} {p q : Nat} (h : p ≠ q) :
    (invalidatePtr heap p)[q]? = heap[q]? := by
  unfold invalidatePtr
  cases hobj : heap[p]? with
  | none => rfl
  | some o => exact List.getElem?_set_ne h

theorem invalidatePtr_getElem_self {heap : List HeapObj} {p : Nat} :
    (invalidatePtr heap p)[p]? = (heap[p]?).map HeapObj.invalidate := by
  unfold invalidatePtr
  cases hobj : heap[p]? with
  | none => exact hobj
  | some o =>
    obtain ⟨hlt, -⟩ := List.getElem?_eq_some.mp hobj
    show (heap.set p o.invalidate)[p]? = some o.invalidate
    exact List.getElem?_set_self hlt

theorem invalidatePtrs_getElem_not_mem {ps : List Nat} {heap : List HeapObj} {p : Nat}
    (h : p ∉ ps) : (invalidatePtrs heap ps)[p]? = heap[p]? := by
  induction ps generalizing heap with
  | nil => rfl
  | cons q ps ih =>
    have hqp : q ≠ p := fun hEq => h (hEq ▸ List.mem_cons_self q ps)
    show (invalidatePtrs (invalidatePtr heap q) ps)[p]? = heap[p]?
    rw [ih (fun hm => h (List.mem_cons_of_mem q hm)), invalidatePtr_getElem_ne hqp]

theorem invalidatePtrs_getElem_mem {ps : List Nat} {heap : List HeapObj} {p : Nat}
    (hnd : ps.Nodup) (h : p ∈ ps) :
    (invalidatePtrs heap ps)[p]? = (heap[p]?).map HeapObj.invalidate := by
  induction ps generalizing heap with
  | nil => cases h
  | cons q ps ih =>
    rcases List.nodup_cons.mp hnd with ⟨hq, hnd'⟩
    rcases List.mem_cons.mp h with rfl | hmem
    · show (invalidatePtrs (invalidatePtr heap p) ps)[p]? = _
      rw [invalidatePtrs_getElem_not_mem hq, invalidatePtr_getElem_self]
    · show (invalidatePtrs (invalidatePtr heap q) ps)[p]? = _
      have hqp : q ≠ p := fun hEq => hq (hEq ▸ hmem)
      rw [ih hnd' hmem, invalidatePtr_getElem_ne hqp]

theorem filterMap_ptr_nodup {heap : List HeapObj} {l : List (Nat × RC)}
    (hok : ∀ e ∈ l, entryOkHeap heap e = true) (hnd : (l.map (·.1)).Nodup) :
    (l.filterMap (fun e => e.2.ptrOf)).Nodup := by
  induction l with
  | nil => simp
  | cons a l ih =>
    simp only [List.map_cons, List.nodup_cons] at hnd
    have ha := hok a (List.mem_cons_self a l)
    obtain ⟨p, obj, hp, _, _, _, _⟩ := entryOkHeap_ptr ha
    rw [List.filterMap_cons]
    rw [show a.2.ptrOf = some p by rw [hp]; rfl]
    refine List.nodup_cons.mpr ⟨?_, ih (fun e he => hok e (List.mem_cons_of_mem a he)) hnd.2⟩
    intro hmem
    obtain ⟨e', he', hpe'⟩ := List.mem_filterMap.mp hmem
    have he'ok := hok e' (List.mem_cons_of_mem a he')
    have hptr' : e'.2 = .ptr p := by
      obtain ⟨p', obj', hp', _, _, _, _⟩ := entryOkHeap_ptr he'ok
      rw [hp'] at hpe' ⊢
      simp [RC.ptrOf] at hpe'
      rw [hpe']
    have : a.1 = e'.1 := key_eq_of_ptr_eq ha he'ok hp hptr'
    exact hnd.1 (this ▸ List.mem_map.mpr ⟨e', he', rfl⟩)

theorem evictResourceContext_eq {st : TpmState} {e : Nat × RC} {p : Nat} {obj : HeapObj}
    (he : e ∈ st.resources)
    (hok : ∀ x ∈ st.resources, entryOkHeap st.heap x = true)
    (hnd : (st.resources.map (·.1)).Nodup)
    (hp : e.2 = .ptr p) (hobj : st.heap[p]? = some obj) :
    evictResourceContext st e.2 =
      .ok { heap := st.heap.set p obj.invalidate,
            resources := st.resources.filter (fun x => !(x.1 == e.1)) } := by
  obtain ⟨p', obj', hp', hobj', hh, hnn, -⟩ := entryOkHeap_ptr (hok e he)
  have hpp : p = p' := by injection hp.symm.trans hp'
  subst hpp
  rw [hobj] at hobj'
  injection hobj' with hoo
  subst hoo
  have hl : lookupResource st e.1 = some e.2 := lookupResource_eq_of_mem he hnd
  have hcheck : checkResourceContextParam st (some (.ptr p)) = none := by
    unfold checkResourceContextParam rcHandle
    dsimp only
    rw [hobj]
    dsimp only [Option.map_some']
    rw [hh, if_neg hnn, hl, hp]
    simp
  rw [hp]
  unfold evictResourceContext
  rw [hcheck]
  simp only [Option.isSome_none, Bool.false_eq_true, if_false]
  rw [hobj]
  dsimp only
  rw [hh]

theorem sweepList_eq (surviving : List Nat) (l : List (Nat × RC)) :
    ∀ (st : TpmState),
    (∀ e ∈ l, e ∈ st.resources) →
    (∀ e ∈ st.resources, entryOkHeap st.heap e = true) →
    (st.resources.map (·.1)).Nodup →
    (l.map (·.1)).Nodup →
    sweepList surviving l st =
      .ok { heap := invalidatePtrs st.heap (evictedPtrs st.heap surviving l),
            resources := st.resources.filter
              (fun x => !((evictedKeys st.heap surviving l).contains x.1)) } := by
  induction l with
  | nil =>
    intro st _ _ _ _
    simp [sweepList, evictedKeys, evictedPtrs, evictedEntries, invalidatePtrs]
  | cons e l ih =>
    intro st h1 h2 h3 h4
    simp only [List.map_cons, List.nodup_cons] at h4
    have heMem : e ∈ st.resources := h1 e (List.mem_cons_self e l)
    obtain ⟨p, obj, hp, hobj, hh, hnn, -⟩ := entryOkHeap_ptr (h2 e heMem)
    by_cases hkeep : sweepKeep st.heap surviving e.2 = true
    · have hstep : sweepOne surviving st e = .ok st := by
        unfold sweepOne; rw [if_pos hkeep]
      show (match sweepOne surviving st e with
        | .ok st' => sweepList surviving l st'
        | .err e' => .err e'
        | .panicked m => .panicked m) = _
      rw [hstep]
      show sweepList surviving l st = _
      rw [ih st (fun x hx => h1 x (List.mem_cons_of_mem _ hx)) h2 h3 h4.2]
      have hE : evictedEntries st.heap surviving (e :: l) =
          evictedEntries st.heap surviving l := by
        unfold evictedEntries
        rw [List.filter_cons_of_neg (by simp [hkeep])]
      rw [show evictedPtrs st.heap surviving (e :: l) = evictedPtrs st.heap surviving l by
            unfold evictedPtrs; rw [hE],
          show evictedKeys st.heap surviving (e :: l) = evictedKeys st.heap surviving l by
            unfold evictedKeys; rw [hE]]
    · have hkeep' : sweepKeep st.heap surviving e.2 = false :=
        Bool.not_eq_true _ ▸ eq_false_of_ne_true hkeep
      have hstep : sweepOne surviving st e = evictResourceContext st e.2 := by
        unfold sweepOne; rw [if_neg (by simp [hkeep'])]
      have hevict := evictResourceContext_eq heMem h2 h3 hp hobj
      show (match sweepOne surviving st e with
        | .ok st' => sweepList surviving l st'
        | .err e' => .err e'
        | .panicked m => .panicked m) = _
      rw [hstep, hevict]
      dsimp only
      set st1 : TpmState :=
        { heap := st.heap.set p obj.invalidate,
          resources := st.resources.filter (fun x => !(x.1 == e.1)) } with hst1
      -- processing `e` does not disturb other entries: distinct keys force
      -- distinct pointers, and the heap write touches only `p`
      have hotherPtr : ∀ x ∈ st.resources, x.1 ≠ e.1 →
          ∀ q, x.2 = .ptr q → q ≠ p := by
        intro x hx hxe q hq hEq
        subst hEq
        exact hxe (key_eq_of_ptr_eq (h2 x hx) (h2 e heMem) hq hp)
      have hokPreserved : ∀ x ∈ st.resources, x.1 ≠ e.1 →
          entryOkHeap st1.heap x = true := by
        intro x hx hxe
        obtain ⟨q, objx, hq, hobjx, hhx, hnnx, hlenx⟩ := entryOkHeap_ptr (h2 x hx)
        have hqp : q ≠ p := hotherPtr x hx hxe q hq
        unfold entryOkHeap
        rw [hq]
        show (match st1.heap[q]? with
          | some o => o.handleOf == x.1 && !(x.1 == HandleNull) && decide (4 ≤ o.nameOf.length)
          | none => false) = true
        rw [show st1.heap[q]? = st.heap[q]? from List.getElem?_set_ne (fun h => hqp h.symm),
          hobjx]
        simp [hhx, hnnx, hlenx]
      have hkeepPreserved : ∀ x ∈ st.resources, x.1 ≠ e.1 →
          sweepKeep st1.heap surviving x.2 = sweepKeep st.heap surviving x.2 := by
        intro x hx hxe
        obtain ⟨q, objx, hq, hobjx, -, -, -⟩ := entryOkHeap_ptr (h2 x hx)
        have hqp : q ≠ p := hotherPtr x hx hxe q hq
        rw [hq]
        unfold sweepKeep
        dsimp only
        rw [show st1.heap[q]? = st.heap[q]? from List.getElem?_set_ne (fun h => hqp h.symm)]
      have hKeyNe : ∀ x ∈ l, x.1 ≠ e.1 := by
        intro x hx hEq
        exact h4.1 (hEq ▸ List.mem_map.mpr ⟨x, hx, rfl⟩)
      have k1 : ∀ x ∈ l, x ∈ st1.resources := by
        intro x hx
        exact List.mem_filter.mpr ⟨h1 x (List.mem_cons_of_mem _ hx),
          by simp [hKeyNe x hx]⟩
      have k2 : ∀ x ∈ st1.resources, entryOkHeap st1.heap x = true := by
        intro x hx
        obtain ⟨hxres, hxne⟩ := List.mem_filter.mp hx
        exact hokPreserved x hxres (by simpa using hxne)
      have k3 : (st1.resources.map (·.1)).Nodup :=
        ((List.filter_sublist st.resources).map (·.1)).nodup h3
      rw [ih st1 k1 k2 k3 h4.2]
      -- rewrite the closed form over `st1` back to decisions over `st`
      have hEntriesEq : evictedEntries st1.heap surviving l =
          evictedEntries st.heap surviving l := by
        unfold evictedEntries
        exact List.filter_congr (fun x hx => by
          rw [hkeepPreserved x (h1 x (List.mem_cons_of_mem _ hx)) (hKeyNe x hx)])
      have hConsE : evictedEntries st.heap surviving (e :: l) =
          e :: evictedEntries st.heap surviving l := by
        unfold evictedEntries
        rw [List.filter_cons_of_pos (by simp [hkeep'])]
      have hPtrsE : evictedPtrs st.heap surviving (e :: l) =
          p :: evictedPtrs st.heap surviving l := by
        unfold evictedPtrs
        rw [hConsE, List.filterMap_cons, show e.2.ptrOf = some p by rw [hp]; rfl]
      have hKeysE : evictedKeys st.heap surviving (e :: l) =
          e.1 :: evictedKeys st.heap surviving l := by
        unfold evictedKeys
        rw [hConsE, List.map_cons]
      refine congrArg Res.ok ?_
      refine TpmState.mk.injEq _ _ _ _ ▸ ?_
      refine ⟨?_, ?_⟩
      · -- heaps agree
        rw [hPtrsE]
        show invalidatePtrs st1.heap (evictedPtrs st1.heap surviving l) =
          invalidatePtrs (invalidatePtr st.heap p) (evictedPtrs st.heap surviving l)
        rw [show invalidatePtr st.heap p = st1.heap by unfold invalidatePtr; rw [hobj],
          show evictedPtrs st1.heap surviving l = evictedPtrs st.heap surviving l by
            unfold evictedPtrs; rw [hEntriesEq]]
      · -- resource tables agree
        rw [hKeysE]
        rw [show evictedKeys st1.heap surviving l = evictedKeys st.heap surviving l by
          unfold evictedKeys; rw [hEntriesEq]]
        rw [hst1]
        show (st.resources.filter (fun x => !(x.1 == e.1))).filter
            (fun x => !((evictedKeys st.heap surviving l).contains x.1)) = _
        rw [List.filter_filter]
        exact List.filter_congr (fun x _ => by
          rw [List.contains_cons]
          cases hxe : x.1 == e.1 <;>
            cases hxk : (evictedKeys st.heap surviving l).contains x.1 <;> rfl)

theorem key_mem_evictedKeys {st : TpmState} {e : Nat × RC} {surviving : List Nat}
    (he : e ∈ st.resources) (hnd : (st.resources.map (·.1)).Nodup) :
    e.1 ∈ evictedKeys st.heap surviving st.resources ↔
      sweepKeep st.heap surviving e.2 = false := by
  unfold evictedKeys evictedEntries
  constructor
  · intro hmem
    obtain ⟨x, hx, hkey⟩ := List.mem_map.mp hmem
    obtain ⟨hxres, hxk⟩ := List.mem_filter.mp hx
    have hxe : x = e := List.inj_on_of_nodup_map hnd hxres he hkey
    subst hxe
    simpa using hxk
  · intro hkeep
    exact List.mem_map.mpr ⟨e, List.mem_filter.mpr ⟨he, by simp [hkeep]⟩, rfl⟩

theorem ptr_mem_evictedPtrs {st : TpmState} {e : Nat × RC} {p : Nat} {surviving : List Nat}
    (he : e ∈ st.resources)
    (hok : ∀ x ∈ st.resources, entryOkHeap st.heap x = true)
    (hnd : (st.resources.map (·.1)).Nodup) (hp : e.2 = .ptr p) :
    p ∈ evictedPtrs st.heap surviving st.resources ↔
      sweepKeep st.heap surviving e.2 = false := by
  unfold evictedPtrs evictedEntries
  constructor
  · intro hmem
    obtain ⟨x, hx, hptr⟩ := List.mem_filterMap.mp hmem
    obtain ⟨hxres, hxk⟩ := List.mem_filter.mp hx
    have hxp : x.2 = .ptr p := by
      cases hx2 : x.2 with
      | permanent q => rw [hx2] at hptr; cases hptr
      | ptr q => rw [hx2] at hptr; cases hptr; rfl
    have hkey : x.1 = e.1 := key_eq_of_ptr_eq (hok x hxres) (hok e he) hxp hp
    have hxe : x = e := List.inj_on_of_nodup_map hnd hxres he hkey
    subst hxe
    simpa using hxk
  · intro hkeep
    exact List.mem_filterMap.mpr ⟨e, List.mem_filter.mpr ⟨he, by simp [hkeep]⟩,
      by rw [hp]; rfl⟩

theorem evictedPtrs_nodup {st : TpmState} {surviving : List Nat}
    (hok : ∀ x ∈ st.resources, entryOkHeap st.heap x = true)
    (hnd : (st.resources.map (·.1)).Nodup) :
    (evictedPtrs st.heap surviving st.resources).Nodup := by
  unfold evictedPtrs
  refine @filterMap_ptr_nodup st.heap (evictedEntries st.heap surviving st.resources) ?_ ?_
  · intro x hx
    exact hok x (List.mem_filter.mp hx).1
  · exact ((List.filter_sublist st.resources).map (·.1)).nodup hnd

theorem swept_kept {st : TpmState} {surviving : List Nat} {e : Nat × RC} {p : Nat}
    (hok : ∀ x ∈ st.resources, entryOkHeap st.heap x = true)
    (hnd : (st.resources.map (·.1)).Nodup)
    (he : e ∈ st.resources) (hp : e.2 = .ptr p)
    (hkeep : sweepKeep st.heap surviving e.2 = true) :
    e ∈ st.resources.filter
        (fun x => !((evictedKeys st.heap surviving st.resources).contains x.1)) ∧
      (invalidatePtrs st.heap (evictedPtrs st.heap surviving st.resources))[p]? =
        st.heap[p]? := by
  constructor
  · refine List.mem_filter.mpr ⟨he, ?_⟩
    have : e.1 ∉ evictedKeys st.heap surviving st.resources := by
      rw [key_mem_evictedKeys he hnd]
      simp [hkeep]
    simp [this]
  · refine invalidatePtrs_getElem_not_mem ?_
    rw [ptr_mem_evictedPtrs he hok hnd hp]
    simp [hkeep]

theorem swept_evicted {st : TpmState} {surviving : List Nat} {e : Nat × RC} {p : Nat}
    (hok : ∀ x ∈ st.resources, entryOkHeap st.heap x = true)
    (hnd : (st.resources.map (·.1)).Nodup)
    (he : e ∈ st.resources) (hp : e.2 = .ptr p)
    (hkeep : sweepKeep st.heap surviving e.2 = false) :
    e.1 ∉ (st.resources.filter
        (fun x => !((evictedKeys st.heap surviving st.resources).contains x.1))).map (·.1) ∧
      (invalidatePtrs st.heap (evictedPtrs st.heap surviving st.resources))[p]? =
        (st.heap[p]?).map HeapObj.invalidate := by
  constructor
  · intro hmem
    obtain ⟨x, hx, hkey⟩ := List.mem_map.mp hmem
    obtain ⟨hxres, hxk⟩ := List.mem_filter.mp hx
    have hek : e.1 ∈ evictedKeys st.heap surviving st.resources :=
      (key_mem_evictedKeys he hnd).mpr hkeep
    rw [hkey] at hxk
    simp [hek] at hxk
  · refine invalidatePtrs_getElem_mem (evictedPtrs_nodup hok hnd) ?_
    rw [ptr_mem_evictedPtrs he hok hnd hp]
    exact hkeep

theorem ClearModel_eq_sweep {st : TpmState} {env : ClearEnv}
    (hok : ∀ x ∈ st.resources, entryOkHeap st.heap x = true)
    (hnd : (st.resources.map (·.1)).Nodup)
    (hval : env.valErr = none) :
    ClearModel st env =
      .ok ({ heap := invalidatePtrs st.heap
               (evictedPtrs st.heap
                 (capHandles env.capTransient ++ capHandles env.capPersistent)
                 st.resources),
             resources := st.resources.filter
               (fun x => !((evictedKeys st.heap
                 (capHandles env.capTransient ++ capHandles env.capPersistent)
                 st.resources).contains x.1)) },
           match env.cmdErr with
           | some e => some e
           | none => env.processResponse (clearResponseSession env.authSession)) := by
  unfold ClearModel
  rw [hval]
  dsimp only
  rw [sweepList_eq _ st.resources st (fun x hx => hx) hok hnd hnd]
  cases env.cmdErr <;> rfl

/-! Branch computations of `WrapHandle` for untracked handles. -/

theorem wrapHandle_untracked_pcr {st : TpmState} {env : WrapEnv} {h : Nat}
    (huntracked : lookupResource st h = none)
    (hty : handleType h = handleTypePCR) :
    WrapHandle st env h = (st, .err (.goError .cannotWrapPCR)) := by
  unfold WrapHandle
  rw [huntracked]
  dsimp only
  rw [if_pos hty]
  rfl

theorem wrapHandle_untracked_session {st : TpmState} {env : WrapEnv} {h : Nat}
    (huntracked : lookupResource st h = none)
    (hty : handleType h = handleTypeHMACSession ∨ handleType h = handleTypePolicySession) :
    WrapHandle st env h = (st, .err (.goError .cannotWrapSession)) := by
  have hne1 : handleType h ≠ handleTypePCR := by
    rcases hty with hty | hty <;> rw [hty] <;> decide
  have hne2 : handleType h ≠ handleTypeNVIndex := by
    rcases hty with hty | hty <;> rw [hty] <;> decide
  unfold WrapHandle
  rw [huntracked]
  dsimp only
  rw [if_neg hne1, if_neg hne2, if_pos hty]
  rfl

theorem wrapHandle_untracked_permanent {st : TpmState} {env : WrapEnv} {h : Nat}
    (huntracked : lookupResource st h = none)
    (hty : handleType h = handleTypePermanent) :
    WrapHandle st env h = (st, .ok (some (.permanent h))) := by
  have hne1 : handleType h ≠ handleTypePCR := by rw [hty]; decide
  have hne2 : handleType h ≠ handleTypeNVIndex := by rw [hty]; decide
  have hne3 : ¬(handleType h = handleTypeHMACSession ∨
      handleType h = handleTypePolicySession) := by rw [hty]; decide
  unfold WrapHandle
  rw [huntracked]
  dsimp only
  rw [if_neg hne1, if_neg hne2, if_neg hne3, if_pos hty]
  rfl

theorem wrapHandle_untracked_nv {st : TpmState} {env : WrapEnv} {h : Nat}
    (huntracked : lookupResource st h = none)
    (hty : handleType h = handleTypeNVIndex) :
    WrapHandle st env h =
      match env.nvReadPublicResult with
      | .error e => (st, .err (classifyWrapErr h e))
      | .ok (pub, name) =>
        ({ heap := st.heap ++ [.nvIndex h pub name],
           resources := st.resources ++ [(h, .ptr st.heap.length)] },
         .ok (some (.ptr st.heap.length))) := by
  have hne1 : handleType h ≠ handleTypePCR := by rw [hty]; decide
  have hnn : h ≠ HandleNull := by
    intro hEq
    rw [hEq] at hty
    exact absurd hty (by decide)
  unfold WrapHandle
  rw [huntracked]
  dsimp only
  rw [if_neg hne1, if_pos hty]
  cases henv : env.nvReadPublicResult with
  | error e =>
    unfold makeNVIndexContext
    rw [henv]
  | ok pr =>
    rcases pr with ⟨pub, name⟩
    unfold makeNVIndexContext
    rw [henv]
    dsimp only
    unfold addResourceContext rcHandle
    dsimp only
    rw [List.getElem?_concat_length]
    dsimp only [Option.map_some', HeapObj.handleOf]
    rw [if_neg hnn]
    rw [show lookupResource
        { heap := st.heap ++ [HeapObj.nvIndex h pub name], resources := st.resources } h =
        none from huntracked]

theorem wrapHandle_untracked_object {st : TpmState} {env : WrapEnv} {h : Nat}
    (huntracked : lookupResource st h = none)
    (hty : handleType h = handleTypeTransient ∨ handleType h = handleTypePersistent) :
    WrapHandle st env h =
      match env.readPublicResult with
      | .error e => (st, .err (classifyWrapErr h e))
      | .ok (pub, name) =>
        ({ heap := st.heap ++ [.object h pub name],
           resources := st.resources ++ [(h, .ptr st.heap.length)] },
         .ok (some (.ptr st.heap.length))) := by
  have hne1 : handleType h ≠ handleTypePCR := by
    rcases hty with hty | hty <;> rw [hty] <;> decide
  have hne2 : handleType h ≠ handleTypeNVIndex := by
    rcases hty with hty | hty <;> rw [hty] <;> decide
  have hne3 : ¬(handleType h = handleTypeHMACSession ∨
      handleType h = handleTypePolicySession) := by
    rcases hty with hty | hty <;> rw [hty] <;> decide
  have hne4 : handleType h ≠ handleTypePermanent := by
    rcases hty with hty | hty <;> rw [hty] <;> decide
  have hnn : h ≠ HandleNull := by
    intro hEq
    rw [hEq] at hne4
    exact hne4 (by decide)
  unfold WrapHandle
  rw [huntracked]
  dsimp only
  rw [if_neg hne1, if_neg hne2, if_neg hne3, if_neg hne4, if_pos hty]
  cases henv : env.readPublicResult with
  | error e =>
    unfold makeObjectContext
    rw [henv]
  | ok pr =>
    rcases pr with ⟨pub, name⟩
    unfold makeObjectContext
    rw [henv]
    dsimp only
    unfold addResourceContext rcHandle
    dsimp only
    rw [List.getElem?_concat_length]
    dsimp only [Option.map_some', HeapObj.handleOf]
    rw [if_neg hnn]
    rw [show lookupResource
        { heap := st.heap ++ [HeapObj.object h pub name], resources := st.resources } h =
        none from huntracked]

theorem wrapHandle_untracked_default {st : TpmState} {env : WrapEnv} {h : Nat}
    (huntracked : lookupResource st h = none)
    (hty1 : handleType h ≠ handleTypePCR)
    (hty2 : handleType h ≠ handleTypeNVIndex)
    (hty3 : handleType h ≠ handleTypeHMACSession)
    (hty4 : handleType h ≠ handleTypePolicySession)
    (hty5 : handleType h ≠ handleTypePermanent)
    (hty6 : handleType h ≠ handleTypeTransient)
    (hty7 : handleType h ≠ handleTypePersistent) :
    WrapHandle st env h = (st, .panicked .nilDereference) := by
  unfold WrapHandle
  rw [huntracked]
  dsimp only
  rw [if_neg hty1, if_neg hty2, if_neg (by tauto), if_neg hty5, if_neg (by tauto)]
  rfl

/-! Claim theorems. -/

/-- C1: for the self-referential secret-rotation commands
(`HierarchyChangeAuth` and `Clear`), when the authorization session's HMAC
key includes the target entity's auth value, the response HMAC is verified
with a key recomputed from the post-change secret — `newAuth` for
`HierarchyChangeAuth`, the empty secret for `Clear` — rather than the key
`sessionKey || authValue` used to build the request. -/
theorem rotation_response_key_post_change
    (s : AuthSession) (newAuth : List Nat) (hinc : s.includeAuthValue = true) :
    (hcaResponseSession (some s) newAuth).map hmacKey = some (s.sessionKey ++ newAuth) ∧
      (clearResponseSession (some s)).map hmacKey = some (s.sessionKey ++ []) ∧
      hmacKey s = s.sessionKey ++ s.authValue := by
  simp [hcaResponseSession, clearResponseSession, copyWithNewAuthIfRequired, hmacKey, hinc]

/-- Witness for C1 at a concrete bound session. -/
theorem rotation_response_key_post_change_witness :
    ({ sessionKey := [1, 2], authValue := [3], includeAuthValue := true } :
        AuthSession).includeAuthValue = true ∧
    ((hcaResponseSession
        (some { sessionKey := [1, 2], authValue := [3], includeAuthValue := true }) [7]).map
          hmacKey = some ([1, 2] ++ [7]) ∧
      (clearResponseSession
        (some ({ sessionKey := [1, 2], authValue := [3], includeAuthValue := true } :
          AuthSession))).map hmacKey = some ([1, 2] ++ []) ∧
      hmacKey { sessionKey := [1, 2], authValue := [3], includeAuthValue := true } =
        [1, 2] ++ [3]) :=
  ⟨rfl, rotation_response_key_post_change
    { sessionKey := [1, 2], authValue := [3], includeAuthValue := true } [7] rfl⟩

/-- C4, evaluated at the failing input (the claim is right and the code has
a slip): invalidating an object context carrying the usual 34-byte
`algorithm || SHA-256 digest` name resets `Handle()` to the null sentinel
and makes the context unusable for authoring a new command
(`checkResourceContextParam` rejects it as closed), but `Name()` does NOT
equal the 4-byte big-endian encoding of the null handle: `PutUint32`
overwrites only the first four bytes of the shared name slice, so the
30-byte stale digest tail remains. -/
theorem invalidate_name_keeps_stale_tail :
    (HeapObj.object 0x80000001 {} sampleObjName).invalidate.handleOf = HandleNull ∧
    (HeapObj.object 0x80000001 {} sampleObjName).invalidate.nameOf ≠ be32 HandleNull ∧
    ((HeapObj.object 0x80000001 {} sampleObjName).invalidate.nameOf).take 4 =
      be32 HandleNull ∧
    ((HeapObj.object 0x80000001 {} sampleObjName).invalidate.nameOf).length = 34 ∧
    checkResourceContextParam
      { heap := [(HeapObj.object 0x80000001 {} sampleObjName).invalidate],
        resources := [] } (some (.ptr 0)) = some (.goError .resourceClosed) := by
  decide

/-- C5: `WrapHandle` is idempotent on tracked handles: when the
`TPMContext` already tracks a context for the handle, the identical context
value is returned and no state is touched. -/
theorem wrapHandle_idempotent_on_tracked
    (st : TpmState) (env : WrapEnv) (h : Nat) (rc : RC)
    (htracked : lookupResource st h = some rc) :
    WrapHandle st env h = (st, .ok (some rc)) := by
  unfold WrapHandle
  rw [htracked]

/-- Witness for C5 at the sample state. -/
theorem wrapHandle_idempotent_on_tracked_witness :
    lookupResource sampleState 0x80000001 = some (.ptr 0) ∧
    WrapHandle sampleState sampleWrapEnv 0x80000001 = (sampleState, .ok (some (.ptr 0))) :=
  ⟨by decide, wrapHandle_idempotent_on_tracked sampleState sampleWrapEnv 0x80000001
    (.ptr 0) (by decide)⟩

/-- C8: permanent-entity contexts are never stored in the resource table
(`addResourceContext` silently skips them), evicting one is a fatal usage
error (panic), and — having no mutable state — their `Handle()` and
`Name()` are the same in every state: the handle itself and its big-endian
encoding. -/
theorem permanent_contexts_untracked_and_constant (st : TpmState) (h : Nat) :
    addResourceContext st (some (.permanent h)) = .ok st ∧
    evictResourceContext st (.permanent h) = .panicked .evictPermanent ∧
    rcHandle st (.permanent h) = some h ∧
    rcName st (.permanent h) = some (be32 h) :=
  ⟨rfl, rfl, rfl, rfl⟩

/-- C10 (amended): for every untracked handle whose type byte is none of
the seven values handled by the `switch` (PCR, NV index, HMAC session,
policy session, permanent, transient, persistent), `WrapHandle` reaches
`addResourceContext` with a nil `ResourceContext` interface value and
panics on the nil-interface method call instead of returning an error.
(The loaded-session alias shares the HMAC-session type byte, so
loaded-session-typed handles are instead rejected with an error.) -/
theorem wrapHandle_unhandled_type_panics
    (st : TpmState) (env : WrapEnv) (h : Nat)
    (huntracked : lookupResource st h = none)
    (h1 : handleType h ≠ handleTypePCR) (h2 : handleType h ≠ handleTypeNVIndex)
    (h3 : handleType h ≠ handleTypeHMACSession)
    (h4 : handleType h ≠ handleTypePolicySession)
    (h5 : handleType h ≠ handleTypePermanent)
    (h6 : handleType h ≠ handleTypeTransient)
    (h7 : handleType h ≠ handleTypePersistent) :
    WrapHandle st env h = (st, .panicked .nilDereference) :=
  wrapHandle_untracked_default huntracked h1 h2 h3 h4 h5 h6 h7

/-- Witness for C10 at the unused type byte 0x04. -/
theorem wrapHandle_unhandled_type_panics_witness :
    lookupResource { heap := [], resources := [] } 0x04000000 = none ∧
    WrapHandle { heap := [], resources := [] } sampleWrapEnv 0x04000000 =
      ({ heap := [], resources := [] }, .panicked .nilDereference) :=
  ⟨by decide, wrapHandle_unhandled_type_panics { heap := [], resources := [] }
    sampleWrapEnv 0x04000000 (by decide) (by decide) (by decide) (by decide) (by decide)
    (by decide) (by decide) (by decide)⟩

/-- C10 (counterexample to the claim's example): the loaded-session alias
type byte IS one of the handled cases — it equals the HMAC-session type
byte — so an untracked loaded-session-typed handle makes `WrapHandle`
return the cannot-wrap-a-session error rather than panic. -/
theorem wrapHandle_loaded_session_type_errors :
    handleType 0x02000001 = handleTypeLoadedSession ∧
    lookupResource { heap := [], resources := [] } 0x02000001 = none ∧
    WrapHandle { heap := [], resources := [] } sampleWrapEnv 0x02000001 =
      ({ heap := [], resources := [] }, .err (.goError .cannotWrapSession)) := by
  decide

/-- C6: when the TPM query behind `WrapHandle` fails because the handle
does not exist — a TPM warning with code ReferenceH0 or a TPM handle error
with code ErrorHandle — `WrapHandle` returns a `ResourceUnavailableError`
carrying that handle, a constructor distinct from transport and plain
errors; every other query failure is returned unchanged. -/
theorem wrapHandle_error_classification
    (st : TpmState) (env : WrapEnv) (h : Nat) (e : GoErr)
    (huntracked : lookupResource st h = none)
    (hq : (handleType h = handleTypeNVIndex ∧ env.nvReadPublicResult = .error e) ∨
      ((handleType h = handleTypeTransient ∨ handleType h = handleTypePersistent) ∧
        env.readPublicResult = .error e)) :
    WrapHandle st env h = (st, .err (classifyWrapErr h e)) ∧
    (e = .tpmWarning warningReferenceH0 → classifyWrapErr h e = .resourceUnavailable h) ∧
    (∀ i, e = .tpmHandleError errorHandle i → classifyWrapErr h e = .resourceUnavailable h) ∧
    (e ≠ .tpmWarning warningReferenceH0 → (∀ i, e ≠ .tpmHandleError errorHandle i) →
      classifyWrapErr h e = e) ∧
    (∀ c msg, GoErr.resourceUnavailable h ≠ .transportFailed c ∧
      GoErr.resourceUnavailable h ≠ .goError msg) := by
  refine ⟨?_, ?_, ?_, ?_, ?_⟩
  · rcases hq with ⟨hty, herr⟩ | ⟨hty, herr⟩
    · rw [wrapHandle_untracked_nv huntracked hty, herr]
    · rw [wrapHandle_untracked_object huntracked hty, herr]
  · intro hEq
    subst hEq
    simp [classifyWrapErr]
  · intro i hEq
    subst hEq
    simp [classifyWrapErr]
  · intro h1 h2
    cases e with
    | tpmWarning c =>
      show (if c = warningReferenceH0 then GoErr.resourceUnavailable h
        else GoErr.tpmWarning c) = GoErr.tpmWarning c
      rw [if_neg (fun hc => h1 (by rw [hc]))]
    | tpmHandleError c i =>
      show (if c = errorHandle then GoErr.resourceUnavailable h
        else GoErr.tpmHandleError c i) = GoErr.tpmHandleError c i
      rw [if_neg (fun hc => h2 i (by rw [hc]))]
    | resourceUnavailable hh => rfl
    | invalidResponse cc mm => rfl
    | transportFailed cc => rfl
    | goError mm => rfl
  · intro c msg
    exact ⟨(fun hc => nomatch hc), (fun hc => nomatch hc)⟩

/-- Witness for C6: an NV-index handle whose read-public reports
ReferenceH0. -/
theorem wrapHandle_error_classification_witness :
    lookupResource { heap := [], resources := [] } 0x01000010 = none ∧
    (handleType 0x01000010 = handleTypeNVIndex ∧
      ({ nvReadPublicResult := .error (.tpmWarning warningReferenceH0),
         readPublicResult := .error (.goError .nilValue) } :
          WrapEnv).nvReadPublicResult = .error (.tpmWarning warningReferenceH0) ∨
      ((handleType 0x01000010 = handleTypeTransient ∨
          handleType 0x01000010 = handleTypePersistent) ∧
        ({ nvReadPublicResult := .error (.tpmWarning warningReferenceH0),
           readPublicResult := .error (.goError .nilValue) } :
            WrapEnv).readPublicResult = .error (.tpmWarning warningReferenceH0))) ∧
    (WrapHandle { heap := [], resources := [] }
        { nvReadPublicResult := .error (.tpmWarning warningReferenceH0),
          readPublicResult := .error (.goError .nilValue) } 0x01000010 =
      ({ heap := [], resources := [] },
        .err (classifyWrapErr 0x01000010 (.tpmWarning warningReferenceH0))) ∧
      (GoErr.tpmWarning warningReferenceH0 = .tpmWarning warningReferenceH0 →
        classifyWrapErr 0x01000010 (.tpmWarning warningReferenceH0) =
          .resourceUnavailable 0x01000010) ∧
      (∀ i, GoErr.tpmWarning warningReferenceH0 = .tpmHandleError errorHandle i →
        classifyWrapErr 0x01000010 (.tpmWarning warningReferenceH0) =
          .resourceUnavailable 0x01000010) ∧
      (GoErr.tpmWarning warningReferenceH0 ≠ .tpmWarning warningReferenceH0 →
        (∀ i, GoErr.tpmWarning warningReferenceH0 ≠ .tpmHandleError errorHandle i) →
        classifyWrapErr 0x01000010 (.tpmWarning warningReferenceH0) =
          .tpmWarning warningReferenceH0) ∧
      (∀ c msg, GoErr.resourceUnavailable 0x01000010 ≠ .transportFailed c ∧
        GoErr.resourceUnavailable 0x01000010 ≠ .goError msg)) :=
  ⟨by decide, .inl ⟨by decide, rfl⟩,
    wrapHandle_error_classification { heap := [], resources := [] }
      { nvReadPublicResult := .error (.tpmWarning warningReferenceH0),
        readPublicResult := .error (.goError .nilValue) } 0x01000010
      (.tpmWarning warningReferenceH0) (by decide) (.inl ⟨by decide, rfl⟩)⟩

/-- C7: for an untracked handle, `WrapHandle` classifies by the handle's
type byte: PCR handles and HMAC/policy session handles are rejected with an
error; NV-index, transient and persistent handles are queried for public
metadata, wrapped, and tracked; permanent handles always succeed without
tracking. -/
theorem wrapHandle_classifies_untracked_by_type
    (st : TpmState) (env : WrapEnv) (h : Nat)
    (huntracked : lookupResource st h = none) :
    (handleType h = handleTypePCR →
      WrapHandle st env h = (st, .err (.goError .cannotWrapPCR))) ∧
    (handleType h = handleTypeHMACSession ∨ handleType h = handleTypePolicySession →
      WrapHandle st env h = (st, .err (.goError .cannotWrapSession))) ∧
    (handleType h = handleTypePermanent →
      WrapHandle st env h = (st, .ok (some (.permanent h)))) ∧
    (handleType h = handleTypeNVIndex →
      ∀ pub name, env.nvReadPublicResult = .ok (pub, name) →
      WrapHandle st env h =
        ({ heap := st.heap ++ [.nvIndex h pub name],
           resources := st.resources ++ [(h, .ptr st.heap.length)] },
         .ok (some (.ptr st.heap.length)))) ∧
    (handleType h = handleTypeTransient ∨ handleType h = handleTypePersistent →
      ∀ pub name, env.readPublicResult = .ok (pub, name) →
      WrapHandle st env h =
        ({ heap := st.heap ++ [.object h pub name],
           resources := st.resources ++ [(h, .ptr st.heap.length)] },
         .ok (some (.ptr st.heap.length)))) := by
  refine ⟨?_, ?_, ?_, ?_, ?_⟩
  · intro hty
    exact wrapHandle_untracked_pcr huntracked hty
  · intro hty
    exact wrapHandle_untracked_session huntracked hty
  · intro hty
    exact wrapHandle_untracked_permanent huntracked hty
  · intro hty pub name hres
    rw [wrapHandle_untracked_nv huntracked hty, hres]
  · intro hty pub name hres
    rw [wrapHandle_untracked_object huntracked hty, hres]

/-- Witness for C7 at a permanent handle. -/
theorem wrapHandle_classifies_untracked_by_type_witness :
    lookupResource { heap := [], resources := [] } 0x40000001 = none ∧
    ((handleType 0x40000001 = handleTypePCR →
      WrapHandle { heap := [], resources := [] } sampleWrapEnv 0x40000001 =
        ({ heap := [], resources := [] }, .err (.goError .cannotWrapPCR))) ∧
    (handleType 0x40000001 = handleTypeHMACSession ∨
        handleType 0x40000001 = handleTypePolicySession →
      WrapHandle { heap := [], resources := [] } sampleWrapEnv 0x40000001 =
        ({ heap := [], resources := [] }, .err (.goError .cannotWrapSession))) ∧
    (handleType 0x40000001 = handleTypePermanent →
      WrapHandle { heap := [], resources := [] } sampleWrapEnv 0x40000001 =
        ({ heap := [], resources := [] }, .ok (some (.permanent 0x40000001)))) ∧
    (handleType 0x40000001 = handleTypeNVIndex →
      ∀ pub name, sampleWrapEnv.nvReadPublicResult = .ok (pub, name) →
      WrapHandle { heap := [], resources := [] } sampleWrapEnv 0x40000001 =
        ({ heap := [.nvIndex 0x40000001 pub name],
           resources := [(0x40000001, .ptr 0)] },
         .ok (some (.ptr 0)))) ∧
    (handleType 0x40000001 = handleTypeTransient ∨
        handleType 0x40000001 = handleTypePersistent →
      ∀ pub name, sampleWrapEnv.readPublicResult = .ok (pub, name) →
      WrapHandle { heap := [], resources := [] } sampleWrapEnv 0x40000001 =
        ({ heap := [.object 0x40000001 pub name],
           resources := [(0x40000001, .ptr 0)] },
         .ok (some (.ptr 0))))) :=
  ⟨by decide, wrapHandle_classifies_untracked_by_type { heap := [], resources := [] }
    sampleWrapEnv 0x40000001 (by decide)⟩

/-- C2: after a `Clear` round trip, for every tracked context: an object
context is evicted (its table entry removed) and invalidated (its heap
object overwritten) if and only if its handle is not in the enumerated set
of TPM-resident transient and persistent handles; an NV-index context is
evicted and invalidated if and only if it lacks the platform-created
attribute; session contexts are never touched by the sweep (and permanent
contexts are never in the table, by `stateWF`, so the sweep never evicts
one). -/
theorem clear_sweep_per_entry (st : TpmState) (env : ClearEnv) (ts ps : List Nat)
    (hWF : stateWF st) (hval : env.valErr = none)
    (hts : env.capTransient = .ok ts) (hps : env.capPersistent = .ok ps) :
    ∃ st' r, ClearModel st env = .ok (st', r) ∧
      ∀ e ∈ st.resources, ∀ p : Nat, e.2 = RC.ptr p →
        (∀ oh pub nm, st.heap[p]? = some (.object oh pub nm) →
          (oh ∈ ts ++ ps → e ∈ st'.resources ∧ st'.heap[p]? = st.heap[p]?) ∧
          (oh ∉ ts ++ ps → e.1 ∉ st'.resources.map (·.1) ∧
            st'.heap[p]? = some ((HeapObj.object oh pub nm).invalidate))) ∧
        (∀ ih pub nm, st.heap[p]? = some (.nvIndex ih pub nm) →
          (pub.attrs &&& attrNVPlatformCreate > 0 →
            e ∈ st'.resources ∧ st'.heap[p]? = st.heap[p]?) ∧
          (¬(pub.attrs &&& attrNVPlatformCreate > 0) → e.1 ∉ st'.resources.map (·.1) ∧
            st'.heap[p]? = some ((HeapObj.nvIndex ih pub nm).invalidate))) ∧
        (∀ sd, st.heap[p]? = some (.session sd) →
          e ∈ st'.resources ∧ st'.heap[p]? = st.heap[p]?) := by
  obtain ⟨hok, hnd⟩ := hWF
  have hsurv : capHandles env.capTransient ++ capHandles env.capPersistent = ts ++ ps := by
    rw [hts, hps]
    rfl
  have hcm := ClearModel_eq_sweep hok hnd hval
  rw [hsurv] at hcm
  refine ⟨_, _, hcm, ?_⟩
  intro e he p hp
  refine ⟨?_, ?_, ?_⟩
  · intro oh pub nm hobj
    have hkeepEq : sweepKeep st.heap (ts ++ ps) e.2 = (ts ++ ps).contains oh := by
      rw [hp]
      unfold sweepKeep
      dsimp only
      rw [hobj]
    constructor
    · intro hmem
      have hkeep : sweepKeep st.heap (ts ++ ps) e.2 = true := by
        rw [hkeepEq]
        simp [hmem]
      have hres := swept_kept hok hnd he hp hkeep
      exact ⟨hres.1, hres.2⟩
    · intro hmem
      have hkeep : sweepKeep st.heap (ts ++ ps) e.2 = false := by
        rw [hkeepEq]
        simp [hmem]
      have hres := swept_evicted hok hnd he hp hkeep
      refine ⟨hres.1, ?_⟩
      rw [hres.2, hobj]
      rfl
  · intro ih pub nm hobj
    have hkeepEq : sweepKeep st.heap (ts ++ ps) e.2 =
        decide (pub.attrs &&& attrNVPlatformCreate > 0) := by
      rw [hp]
      unfold sweepKeep
      dsimp only
      rw [hobj]
    constructor
    · intro hattr
      have hkeep : sweepKeep st.heap (ts ++ ps) e.2 = true := by
        rw [hkeepEq]
        exact decide_eq_true hattr
      have hres := swept_kept hok hnd he hp hkeep
      exact ⟨hres.1, hres.2⟩
    · intro hattr
      have hkeep : sweepKeep st.heap (ts ++ ps) e.2 = false := by
        rw [hkeepEq]
        exact decide_eq_false hattr
      have hres := swept_evicted hok hnd he hp hkeep
      refine ⟨hres.1, ?_⟩
      rw [hres.2, hobj]
      rfl
  · intro sd hobj
    have hkeep : sweepKeep st.heap (ts ++ ps) e.2 = true := by
      rw [hp]
      unfold sweepKeep
      dsimp only
      rw [hobj]
    have hres := swept_kept hok hnd he hp hkeep
    exact ⟨hres.1, hres.2⟩

/-- Witness for C2: the sample state swept by a successful `Clear` whose
enumerations report nothing resident. -/
theorem clear_sweep_per_entry_witness :
    stateWF sampleState ∧
    sampleClearEnv.valErr = none ∧
    sampleClearEnv.capTransient = .ok [] ∧
    sampleClearEnv.capPersistent = .ok [] ∧
    (∃ st' r, ClearModel sampleState sampleClearEnv = .ok (st', r) ∧
      ∀ e ∈ sampleState.resources, ∀ p : Nat, e.2 = RC.ptr p →
        (∀ oh pub nm, sampleState.heap[p]? = some (.object oh pub nm) →
          (oh ∈ [] ++ [] → e ∈ st'.resources ∧ st'.heap[p]? = sampleState.heap[p]?) ∧
          (oh ∉ [] ++ [] → e.1 ∉ st'.resources.map (·.1) ∧
            st'.heap[p]? = some ((HeapObj.object oh pub nm).invalidate))) ∧
        (∀ ih pub nm, sampleState.heap[p]? = some (.nvIndex ih pub nm) →
          (pub.attrs &&& attrNVPlatformCreate > 0 →
            e ∈ st'.resources ∧ st'.heap[p]? = sampleState.heap[p]?) ∧
          (¬(pub.attrs &&& attrNVPlatformCreate > 0) → e.1 ∉ st'.resources.map (·.1) ∧
            st'.heap[p]? = some ((HeapObj.nvIndex ih pub nm).invalidate))) ∧
        (∀ sd, sampleState.heap[p]? = some (.session sd) →
          e ∈ st'.resources ∧ st'.heap[p]? = sampleState.heap[p]?)) :=
  ⟨by decide, rfl, rfl, rfl,
    clear_sweep_per_entry sampleState sampleClearEnv [] [] (by decide) rfl rfl rfl⟩

/-- C3 (amended): on transport failure no local state is mutated by
`CreatePrimary` or by the `WrapHandle` metadata queries, but `Clear` is an
exception: its mass-invalidation sweep runs before the round-trip error is
even examined, so it mutates local state (exactly the sweep, nothing else)
even when the command never reached the module, and then returns the
error. -/
theorem transport_failure_mutation_boundary (st : TpmState) :
    (∀ env : ClearEnv, stateWF st → env.valErr = none → ∀ e, env.cmdErr = some e →
      ClearModel st env =
        .ok ({ heap := invalidatePtrs st.heap
                 (evictedPtrs st.heap
                   (capHandles env.capTransient ++ capHandles env.capPersistent)
                   st.resources),
               resources := st.resources.filter
                 (fun x => !((evictedKeys st.heap
                   (capHandles env.capTransient ++ capHandles env.capPersistent)
                   st.resources).contains x.1)) }, some e)) ∧
    (∀ cpenv : CreatePrimaryEnv, ∀ cmd e, cpenv.runCmdResult = .error e →
      CreatePrimaryModel st cpenv cmd = (st, .err e)) ∧
    (∀ wenv : WrapEnv, ∀ h e, lookupResource st h = none →
      ((handleType h = handleTypeNVIndex ∧ wenv.nvReadPublicResult = .error e) ∨
        ((handleType h = handleTypeTransient ∨ handleType h = handleTypePersistent) ∧
          wenv.readPublicResult = .error e)) →
      (WrapHandle st wenv h).1 = st) := by
  refine ⟨?_, ?_, ?_⟩
  · intro env hWF hval e hcmd
    obtain ⟨hok, hnd⟩ := hWF
    rw [ClearModel_eq_sweep hok hnd hval, hcmd]
  · intro cpenv cmd e herr
    unfold CreatePrimaryModel
    rw [herr]
  · intro wenv h e huntracked hq
    rcases hq with ⟨hty, herr⟩ | ⟨hty, herr⟩
    · rw [wrapHandle_untracked_nv huntracked hty, herr]
    · rw [wrapHandle_untracked_object huntracked hty, herr]

/-- Witness for C3 (amended), exercising the `Clear` exception at the
sample state with a failed transport. -/
theorem transport_failure_mutation_boundary_witness :
    stateWF sampleSmallState ∧
    sampleClearTransportEnv.valErr = none ∧
    sampleClearTransportEnv.cmdErr = some (.transportFailed 0) ∧
    ClearModel sampleSmallState sampleClearTransportEnv =
      .ok ({ heap := invalidatePtrs sampleSmallState.heap
               (evictedPtrs sampleSmallState.heap
                 (capHandles sampleClearTransportEnv.capTransient ++
                   capHandles sampleClearTransportEnv.capPersistent)
                 sampleSmallState.resources),
             resources := sampleSmallState.resources.filter
               (fun x => !((evictedKeys sampleSmallState.heap
                 (capHandles sampleClearTransportEnv.capTransient ++
                   capHandles sampleClearTransportEnv.capPersistent)
                 sampleSmallState.resources).contains x.1)) },
           some (.transportFailed 0)) :=
  ⟨by decide, rfl, rfl,
    (transport_failure_mutation_boundary sampleSmallState).1 sampleClearTransportEnv
      (by decide) rfl (.transportFailed 0) rfl⟩

/-- C3 (counterexample): `Clear` is a command for which a failed transport
call does mutate local state — the tracked object context is evicted (the
table empties and the heap object is invalidated) even though the round
trip failed with a transport error. -/
theorem clear_mutates_on_transport_failure :
    ClearModel sampleSmallState sampleClearTransportEnv =
      .ok ({ heap := [.object HandleNull {} (putUint32BE sampleObjName HandleNull)],
             resources := [] }, some (.transportFailed 0)) ∧
    sampleSmallState.resources ≠ [] := by
  decide

/-- C9: a failed capability enumeration during the post-`Clear` sweep is
silently swallowed — `Clear` still completes its sweep (no error from the
enumeration is surfaced) and the corresponding handles are treated as
absent from the surviving set, so a tracked object context whose handle the
failed enumeration would have reported is evicted and invalidated even if
the object is still TPM-resident. -/
theorem clear_capability_failure_forces_eviction
    (st : TpmState) (env : ClearEnv) (e0 : GoErr) (e : Nat × RC) (p oh : Nat)
    (pub : Public) (nm : List Nat)
    (hWF : stateWF st) (hval : env.valErr = none)
    (hcap : env.capTransient = .error e0)
    (he : e ∈ st.resources) (hp : e.2 = .ptr p)
    (hobj : st.heap[p]? = some (.object oh pub nm))
    (hnotPers : oh ∉ capHandles env.capPersistent) :
    ∃ st' r, ClearModel st env = .ok (st', r) ∧
      e.1 ∉ st'.resources.map (·.1) ∧
      st'.heap[p]? = some ((HeapObj.object oh pub nm).invalidate) := by
  obtain ⟨hok, hnd⟩ := hWF
  have hsurv : capHandles env.capTransient ++ capHandles env.capPersistent =
      capHandles env.capPersistent := by
    rw [hcap]
    rfl
  have hcm := ClearModel_eq_sweep hok hnd hval
  rw [hsurv] at hcm
  refine ⟨_, _, hcm, ?_⟩
  have hkeep : sweepKeep st.heap (capHandles env.capPersistent) e.2 = false := by
    rw [hp]
    unfold sweepKeep
    dsimp only
    rw [hobj]
    simp [hnotPers]
  have hres := swept_evicted hok hnd he hp hkeep
  refine ⟨hres.1, ?_⟩
  rw [hres.2, hobj]
  rfl

/-- Witness for C9: the sample state, transient enumeration failing. -/
theorem clear_capability_failure_forces_eviction_witness :
    stateWF sampleState ∧
    sampleClearCapFailEnv.valErr = none ∧
    sampleClearCapFailEnv.capTransient = .error (.tpmWarning 0x23) ∧
    (0x80000001, RC.ptr 0) ∈ sampleState.resources ∧
    (0x80000001, RC.ptr 0).2 = RC.ptr 0 ∧
    sampleState.heap[(0 : Nat)]? = some (.object 0x80000001 {} sampleObjName) ∧
    (0x80000001 : Nat) ∉ capHandles sampleClearCapFailEnv.capPersistent ∧
    (∃ st' r, ClearModel sampleState sampleClearCapFailEnv = .ok (st', r) ∧
      (0x80000001, RC.ptr 0).1 ∉ st'.resources.map (·.1) ∧
      st'.heap[(0 : Nat)]? =
        some ((HeapObj.object 0x80000001 {} sampleObjName).invalidate)) :=
  ⟨by decide, rfl, rfl, by decide, rfl, by decide, by decide,
    clear_capability_failure_forces_eviction sampleState sampleClearCapFailEnv
      (.tpmWarning 0x23) (0x80000001, RC.ptr 0) 0 0x80000001 {} sampleObjName
      (by decide) rfl rfl (by decide) rfl (by decide) (by decide)⟩

end Tpm2
